import Mathlib

/-!
Verification development for two log-ingestion adapters of a log-shipping

agent: the kubernetes metadata-enrichment middleware
(src/common/k8s/src/middleware.rs) and the journald source
(src/common/journald/src/lib.rs).

Rust strings are modelled as Lean String (lists of unicode characters),
maps with unique keys (HashMap, BTreeMap) as association lists, fallible
operations as Option or Except.
-/

namespace Logdna

/-! ## Path Correlator (src/common/k8s/src/middleware.rs, K8S_REG and
parse_container_path)

The regex is
  ^/var/log/containers/([a-z0-9A-Z\-.]+)_([a-z0-9A-Z\-.]+)_([a-z0-9A-Z\-.]+)-([a-z0-9]\x7b64\x7d).log$
None of the three name groups may contain an underscore, so the two
underscore literals are forced to the first two underscores of the
remainder, and the tail ([group3]-[id][any char]log) is position-forced
from the end of the string, so the regex match is equivalent to the
deterministic parse below.  Note that the id group is [a-z0-9], wider
than hexadecimal, and the dot before log is an unescaped regex dot,
matching every character except the newline. -/

/-- Character class [a-z0-9A-Z\-.] of the three name groups (ASCII
letters, ASCII digits, dash, dot). -/
def isNameChar (c : Char) : Bool :=
  c.isLower || c.isUpper || c.isDigit || c == '-' || c == '.'

/-- Character class [a-z0-9] of the 64-character container id group. -/
def isIdChar (c : Char) : Bool :=
  c.isLower || c.isDigit

/-- Strip the literal leading characters, or fail. -/
def dropLead : List Char → List Char → Option (List Char)
  | [], l => some l
  | _ :: _, [] => none
  | p :: ps, c :: cs => if c == p then dropLead ps cs else none

/-- Split a character list at the first occurrence of the separator. -/
def splitOnFirst (sep : Char) : List Char → Option (List Char × List Char)
  | [] => none
  | c :: cs =>
    if c == sep then some ([], cs)
    else
      match splitOnFirst sep cs with
      | some (a, b) => some (c :: a, b)
      | none => none

/-- The tail of the regex after the second underscore:
([a-z0-9A-Z\-.]+)-([a-z0-9]\x7b64\x7d).log$ with the dot an unescaped
regex dot (any character except newline). -/
def tailMatch (l : List Char) : Bool :=
  match l.reverse with
  | g :: o :: lc :: c :: rest =>
    g == 'g' && o == 'o' && lc == 'l' && !(c == '\n') &&
      (rest.take 64).length == 64 && (rest.take 64).all isIdChar &&
      (match rest.drop 64 with
       | d :: g3r => d == '-' && !g3r.isEmpty && g3r.all isNameChar
       | [] => false)
  | _ => false

/-- The literal path segment the regex anchors on. -/
def containersLead : List Char := "/var/log/containers/".toList

/-- parse_container_path from src/common/k8s/src/middleware.rs: match the
path against K8S_REG and return captures 1 and 2 (pod name and
namespace). -/
def parse_container_path (path : String) : Option (String × String) :=
  match dropLead containersLead path.toList with
  | none => none
  | some rest =>
    match splitOnFirst '_' rest with
    | none => none
    | some (g1, r1) =>
      if g1.isEmpty || !g1.all isNameChar then none
      else
        match splitOnFirst '_' r1 with
        | none => none
        | some (g2, r2) =>
          if g2.isEmpty || !g2.all isNameChar then none
          else if tailMatch r2 then some (String.mk g1, String.mk g2)
          else none

/-- Hexadecimal digit (0-9, a-f, A-F). -/
def isHexChar (c : Char) : Bool :=
  c.isDigit || (('a' ≤ c) && (c ≤ 'f')) || (('A' ≤ c) && (c ≤ 'F'))

/-- Tail check following the words of the specification sentence instead
of the source regex: a 64-character hexadecimal id followed by the
literal string .log. -/
def tailMatchSpec (l : List Char) : Bool :=
  match l.reverse with
  | g :: o :: lc :: c :: rest =>
    g == 'g' && o == 'o' && lc == 'l' && c == '.' &&
      (rest.take 64).length == 64 && (rest.take 64).all isHexChar &&
      (match rest.drop 64 with
       | d :: g3r => d == '-' && !g3r.isEmpty && g3r.all isNameChar
       | [] => false)
  | _ => false

/-- Path correlator as the specification sentence words it (for
comparison with parse_container_path): the id must be 64 hexadecimal
characters and the dot before log is a literal dot. -/
def claimed_container_path (path : String) : Option (String × String) :=
  match dropLead containersLead path.toList with
  | none => none
  | some rest =>
    match splitOnFirst '_' rest with
    | none => none
    | some (g1, r1) =>
      if g1.isEmpty || !g1.all isNameChar then none
      else
        match splitOnFirst '_' r1 with
        | none => none
        | some (g2, r2) =>
          if g2.isEmpty || !g2.all isNameChar then none
          else if tailMatchSpec r2 then some (String.mk g1, String.mk g2)
          else none

/-- The pattern that parse_container_path actually implements, stated
declaratively: the path decomposes into the literal lead, a nonempty pod
name, an underscore, a nonempty namespace, an underscore, a nonempty
container name, a dash, exactly 64 characters from [a-z0-9], one
arbitrary non-newline character, and the literal log. -/
def K8sPathPattern (path pod ns : String) : Prop :=
  ∃ g3 hex c,
    path.toList =
      containersLead ++ pod.toList ++ '_' :: ns.toList ++ '_' :: g3 ++
        '-' :: hex ++ c :: 'l' :: 'o' :: 'g' :: [] ∧
    pod.toList ≠ [] ∧ pod.toList.all isNameChar = true ∧
    ns.toList ≠ [] ∧ ns.toList.all isNameChar = true ∧
    g3 ≠ [] ∧ g3.all isNameChar = true ∧
    hex.length = 64 ∧ hex.all isIdChar = true ∧ c ≠ '\n'

theorem dropLead_eq_some (p : List Char) :
    ∀ l r, dropLead p l = some r ↔ l = p ++ r := by
  induction p with
  | nil => intro l r; simp [dropLead]
  | cons c cs ih =>
    intro l r
    cases l with
    | nil => simp [dropLead]
    | cons x xs =>
      simp only [dropLead]
      by_cases hx : x = c
      · subst hx; simp [ih]
      · have hxc : (x == c) = false := by simpa using hx
        simp [hxc, hx]

theorem splitOnFirst_sound (sep : Char) :
    ∀ l a b, splitOnFirst sep l = some (a, b) → l = a ++ sep :: b ∧ sep ∉ a := by
  intro l
  induction l with
  | nil => intro a b h; simp [splitOnFirst] at h
  | cons c cs ih =>
    intro a b h
    by_cases hc : c = sep
    · subst hc
      simp [splitOnFirst] at h
      obtain ⟨h1, h2⟩ := h
      subst h1; subst h2
      simp
    · have hcc : (c == sep) = false := by simpa using hc
      simp only [splitOnFirst, hcc, Bool.false_eq_true, if_false] at h
      cases hs : splitOnFirst sep cs with
      | none => rw [hs] at h; simp at h
      | some p =>
        rw [hs] at h
        obtain ⟨a0, b0⟩ := p
        simp only [Option.some.injEq, Prod.mk.injEq] at h
        obtain ⟨ha, hb⟩ := h
        obtain ⟨h1, h2⟩ := ih a0 b0 hs
        subst hb
        rw [← ha]
        constructor
        · rw [List.cons_append, ← h1]
        · intro hmem
          rcases List.mem_cons.mp hmem with h | h
          · exact hc h.symm
          · exact h2 h

theorem splitOnFirst_complete (sep : Char) :
    ∀ a b, sep ∉ a → splitOnFirst sep (a ++ sep :: b) = some (a, b) := by
  intro a
  induction a with
  | nil => intro b _; simp [splitOnFirst]
  | cons c cs ih =>
    intro b hmem
    simp only [List.cons_append, splitOnFirst]
    have hc : ¬(c = sep) := fun h => hmem (h ▸ List.mem_cons_self c cs)
    simp [hc]
    rw [ih b (fun h => hmem (List.mem_cons_of_mem c h))]

theorem tailMatch_iff (l : List Char) :
    tailMatch l = true ↔
      ∃ g3 hex c,
        l = g3 ++ '-' :: hex ++ c :: 'l' :: 'o' :: 'g' :: [] ∧
        g3 ≠ [] ∧ g3.all isNameChar = true ∧
        hex.length = 64 ∧ hex.all isIdChar = true ∧ c ≠ '\n' := by
  constructor
  · intro h
    unfold tailMatch at h
    split at h
    case h_2 => exact absurd h (by simp)
    case h_1 g o lc c rest hrev =>
      rcases hd : rest.drop 64 with _ | ⟨d, g3r⟩
      · rw [hd] at h; simp at h
      · rw [hd] at h
        simp only [Bool.and_eq_true, beq_iff_eq, Bool.not_eq_true',
          List.isEmpty_eq_false, and_assoc] at h
        obtain ⟨hg, ho, hlc, hc, hlen, hall, hd2, hg3ne, hg3all⟩ := h
        subst hg; subst ho; subst hlc; subst hd2
        refine ⟨g3r.reverse, (rest.take 64).reverse, c, ?_, ?_, ?_, ?_, ?_, ?_⟩
        · have hl : l = ('g' :: 'o' :: 'l' :: c :: rest).reverse := by
            rw [← hrev, List.reverse_reverse]
          have hrest : rest = rest.take 64 ++ '-' :: g3r := by
            conv_lhs => rw [← List.take_append_drop 64 rest]
            rw [hd]
          rw [hl]
          conv_lhs => rw [hrest]
          simp
        · simpa using hg3ne
        · simpa using hg3all
        · simpa using hlen
        · simpa using hall
        · simpa using hc
  · rintro ⟨g3, hex, c, hl, hg3ne, hg3all, hlen, hhexall, hc⟩
    subst hl
    unfold tailMatch
    have hrev : (g3 ++ '-' :: hex ++ c :: 'l' :: 'o' :: 'g' :: []).reverse =
        'g' :: 'o' :: 'l' :: c :: (hex.reverse ++ '-' :: g3.reverse) := by
      simp
    rw [hrev]
    have hlenr : hex.reverse.length = 64 := by simpa using hlen
    have htake : (hex.reverse ++ '-' :: g3.reverse).take 64 = hex.reverse := by
      rw [← hlenr]; exact List.take_left hex.reverse ('-' :: g3.reverse)
    have hdrop : (hex.reverse ++ '-' :: g3.reverse).drop 64 = '-' :: g3.reverse := by
      rw [← hlenr]; exact List.drop_left hex.reverse ('-' :: g3.reverse)
    simp only [htake, hdrop]
    simp [hlenr, hhexall, hg3ne, hg3all]
    simpa using hc

theorem allNameChar_no_underscore {l : List Char} (h : l.all isNameChar = true) :
    '_' ∉ l := by
  intro hmem
  rw [List.all_eq_true] at h
  have := h _ hmem
  simp [isNameChar] at this

/-- C1 characterization, forward direction split out: a successful parse
yields the declarative decomposition. -/
theorem parse_container_path_sound (path : String) (pod ns : String)
    (h : parse_container_path path = some (pod, ns)) : K8sPathPattern path pod ns := by
  unfold parse_container_path at h
  split at h
  · exact absurd h (by simp)
  case h_2 rest hlead =>
    split at h
    · exact absurd h (by simp)
    case h_2 g1 r1 hsplit1 =>
      split at h
      · exact absurd h (by simp)
      case isFalse hcond1 =>
        split at h
        · exact absurd h (by simp)
        case h_2 g2 r2 hsplit2 =>
          split at h
          · exact absurd h (by simp)
          case isFalse hcond2 =>
            split at h
            case isFalse => exact absurd h (by simp)
            case isTrue htail =>
              simp only [Option.some.injEq, Prod.mk.injEq] at h
              obtain ⟨hpod, hns⟩ := h
              simp only [Bool.or_eq_true, Bool.not_eq_true', List.isEmpty_eq_true,
                Bool.not_eq_true] at hcond1 hcond2
              push_neg at hcond1 hcond2
              obtain ⟨hg1ne, hg1all⟩ := hcond1
              obtain ⟨hg2ne, hg2all⟩ := hcond2
              obtain ⟨hr, _⟩ := splitOnFirst_sound '_' rest g1 r1 hsplit1
              obtain ⟨hr1, _⟩ := splitOnFirst_sound '_' r1 g2 r2 hsplit2
              obtain ⟨g3, hex, c, hr2, hg3ne, hg3all, hlen, hhex, hc⟩ :=
                (tailMatch_iff r2).mp htail
              refine ⟨g3, hex, c, ?_, ?_, ?_, ?_, ?_, hg3ne, hg3all, hlen, hhex, hc⟩
              · have : path.toList = containersLead ++ rest :=
                  (dropLead_eq_some containersLead path.toList rest).mp hlead
                rw [this, hr, hr1, hr2, ← hpod, ← hns]
                simp
              · rw [← hpod]; simpa using hg1ne
              · rw [← hpod]; simpa using hg1all
              · rw [← hns]; simpa using hg2ne
              · rw [← hns]; simpa using hg2all

theorem string_mk_toList (s : String) : String.mk s.toList = s := by
  cases s; rfl

/-- C1 characterization, backward direction split out: the declarative
decomposition forces a successful parse with those captures. -/
theorem parse_container_path_complete (path : String) (pod ns : String)
    (h : K8sPathPattern path pod ns) : parse_container_path path = some (pod, ns) := by
  obtain ⟨g3, hex, c, hl, hpodne, hpodall, hnsne, hnsall, hg3ne, hg3all, hlen, hhex, hc⟩ := h
  have hlead : dropLead containersLead path.toList =
      some (pod.toList ++ '_' :: (ns.toList ++ '_' :: (g3 ++
        '-' :: hex ++ c :: 'l' :: 'o' :: 'g' :: []))) := by
    rw [dropLead_eq_some, hl]
    simp
  have hsplit1 : splitOnFirst '_' (pod.toList ++ '_' :: (ns.toList ++ '_' :: (g3 ++
      '-' :: hex ++ c :: 'l' :: 'o' :: 'g' :: []))) =
      some (pod.toList, ns.toList ++ '_' :: (g3 ++
        '-' :: hex ++ c :: 'l' :: 'o' :: 'g' :: [])) :=
    splitOnFirst_complete '_' pod.toList _ (allNameChar_no_underscore hpodall)
  have hsplit2 : splitOnFirst '_' (ns.toList ++ '_' :: (g3 ++
      '-' :: hex ++ c :: 'l' :: 'o' :: 'g' :: [])) =
      some (ns.toList, g3 ++ '-' :: hex ++ c :: 'l' :: 'o' :: 'g' :: []) :=
    splitOnFirst_complete '_' ns.toList _ (allNameChar_no_underscore hnsall)
  have htail : tailMatch (g3 ++ '-' :: hex ++ c :: 'l' :: 'o' :: 'g' :: []) = true :=
    (tailMatch_iff _).mpr ⟨g3, hex, c, rfl, hg3ne, hg3all, hlen, hhex, hc⟩
  have hpodemp : pod.toList.isEmpty = false := List.isEmpty_eq_false.mpr hpodne
  have hnsemp : ns.toList.isEmpty = false := List.isEmpty_eq_false.mpr hnsne
  simp only [parse_container_path, hlead, hsplit1, hsplit2, htail, hpodemp, hnsemp,
    hpodall, hnsall, Bool.not_true, Bool.or_false, Bool.false_eq_true, if_false,
    if_true, string_mk_toList]

/-- C1 (amended): parse_container_path returns (pod-name, namespace)
exactly when the path matches the fixed structural pattern
/var/log/containers/[pod]_[ns]_[container]-[id][c]log where pod, ns and
container are nonempty strings over alphanumerics, dash and dot, the id
is exactly 64 characters from [a-z0-9] (lowercase alphanumerics, wider
than hexadecimal), and c is one arbitrary non-newline character (the dot
of the regex is unescaped). -/
theorem c1_parse_container_path_iff_pattern (path pod ns : String) :
    parse_container_path path = some (pod, ns) ↔ K8sPathPattern path pod ns :=
  ⟨parse_container_path_sound path pod ns, parse_container_path_complete path pod ns⟩

/-- C1 witness: the documented example path with a 64-character
lowercase-hex id parses to (nginx, default), through the
characterization theorem. -/
theorem c1_parse_container_path_iff_pattern_witness :
    K8sPathPattern
      "/var/log/containers/nginx_default_nginx-0123456789abcdef0123456789abcdef0123456789abcdef0123456789abcdef.log"
      "nginx" "default" :=
  (c1_parse_container_path_iff_pattern
      "/var/log/containers/nginx_default_nginx-0123456789abcdef0123456789abcdef0123456789abcdef0123456789abcdef.log"
      "nginx" "default").mp (by decide)

/-- C1 counterexample: a path whose trailing 64-character id is 64 times
the letter z (not hexadecimal) and whose character before log is X (not
a dot) is still matched by parse_container_path, while the matcher
written from the words of the claim rejects it; so the claim as stated
is false on the code. -/
theorem c1_hex_suffix_counterexample :
    parse_container_path
        "/var/log/containers/nginx_default_nginx-zzzzzzzzzzzzzzzzzzzzzzzzzzzzzzzzzzzzzzzzzzzzzzzzzzzzzzzzzzzzzzzzXlog"
      = some ("nginx", "default") ∧
    claimed_container_path
        "/var/log/containers/nginx_default_nginx-zzzzzzzzzzzzzzzzzzzzzzzzzzzzzzzzzzzzzzzzzzzzzzzzzzzzzzzzzzzzzzzzXlog"
      = none := by
  constructor <;> decide

/-! ## Journald source (src/common/journald/src/lib.rs)

A JournalRecord (BTreeMap of string fields in the source) is modelled as
an association list with lookup on the first matching key; RecordStatus
and the per-transport formatters follow the source line by line. -/

/-- Modelled from the spec: the line abstraction shared by both
components (http crate, outside src): a text line plus an optional
origin-file identifier and optional label and annotation maps; each
builder method of the source sets one field of the copy it returns. -/
structure LineBuilder where
  line : Option String := none
  file : Option String := none
  labels : Option (List (String × String)) := none
  annots : Option (List (String × String)) := none
deriving DecidableEq, Repr

/-- LineBuilder::new(), with every field unset. -/
def LineBuilder.new : LineBuilder := {}

/-- Builder method line() of the source. -/
def LineBuilder.withLine (b : LineBuilder) (s : String) : LineBuilder :=
  { b with line := some s }

/-- Builder method file() of the source. -/
def LineBuilder.withFile (b : LineBuilder) (s : String) : LineBuilder :=
  { b with file := some s }

/-- Builder method labels() of the source. -/
def LineBuilder.withLabels (b : LineBuilder) (m : List (String × String)) : LineBuilder :=
  { b with labels := some m }

/-- Builder method annotations() of the source (field renamed). -/
def LineBuilder.withAnnots (b : LineBuilder) (m : List (String × String)) : LineBuilder :=
  { b with annots := some m }

/-- One journald entry: ordered key/value string fields (BTreeMap in the
source, so keys are unique; lookup returns the first match). -/
abbrev JournalRecord := List (String × String)

/-- BTreeMap::get. -/
def recordGet (r : JournalRecord) (k : String) : Option String :=
  (r.find? (fun e => e.1 == k)).map (·.2)

/-- RecordStatus of the source. -/
inductive RecordStatus where
  | Line (line : LineBuilder)
  | BadLine
  | NoLines
deriving DecidableEq, Repr

def KEY_TRANSPORT : String := "_TRANSPORT"
def KEY_HOSTNAME : String := "_HOSTNAME"
def KEY_COMM : String := "_COMM"
def KEY_PID : String := "_PID"
def KEY_MESSAGE : String := "MESSAGE"

def TRANSPORT_AUDIT : String := "audit"
def TRANSPORT_DRIVER : String := "driver"
def TRANSPORT_SYSLOG : String := "syslog"
def TRANSPORT_JOURNAL : String := "journal"
def TRANSPORT_STDOUT : String := "stdout"
def TRANSPORT_KERNEL : String := "kernel"

/-- JournaldSource::process_audit_record. -/
def process_audit_record (record : JournalRecord) (timestamp : String) : RecordStatus :=
  match recordGet record KEY_HOSTNAME with
  | none => RecordStatus.BadLine
  | some hostname =>
    match recordGet record KEY_PID with
    | none => RecordStatus.BadLine
    | some pid =>
      match recordGet record KEY_MESSAGE with
      | none => RecordStatus.BadLine
      | some message =>
        RecordStatus.Line ((LineBuilder.new.withLine
          (timestamp ++ " " ++ hostname ++ " audit[" ++ pid ++ "]: " ++ message)).withFile
            hostname)

/-- JournaldSource::process_default_record, shared by the driver,
syslog, journal and stdout transports. -/
def process_default_record (record : JournalRecord) (record_type : String)
    (timestamp : String) : RecordStatus :=
  match recordGet record KEY_HOSTNAME with
  | none => RecordStatus.BadLine
  | some hostname =>
    match recordGet record KEY_COMM with
    | none => RecordStatus.BadLine
    | some comm =>
      match recordGet record KEY_PID with
      | none => RecordStatus.BadLine
      | some pid =>
        match recordGet record KEY_MESSAGE with
        | none => RecordStatus.BadLine
        | some message =>
          RecordStatus.Line ((LineBuilder.new.withLine
            (timestamp ++ " " ++ hostname ++ " " ++ comm ++ "[" ++ pid ++ "]: " ++
              message)).withFile hostname)

/-- JournaldSource::process_kernel_record. -/
def process_kernel_record (record : JournalRecord) (timestamp : String) : RecordStatus :=
  match recordGet record KEY_HOSTNAME with
  | none => RecordStatus.BadLine
  | some hostname =>
    match recordGet record KEY_MESSAGE with
    | none => RecordStatus.BadLine
    | some message =>
      RecordStatus.Line ((LineBuilder.new.withLine
        (timestamp ++ " " ++ hostname ++ " kernel: " ++ message)).withFile hostname)

/-- Transport dispatch of JournaldSource::process_next_record (lines
218-237): match on the _TRANSPORT field, reject a missing or unknown
transport. -/
def process_record_transport (record : JournalRecord) (timestamp : String) : RecordStatus :=
  match recordGet record KEY_TRANSPORT with
  | some transport =>
    if transport == TRANSPORT_AUDIT then process_audit_record record timestamp
    else if transport == TRANSPORT_DRIVER || transport == TRANSPORT_SYSLOG ||
        transport == TRANSPORT_JOURNAL || transport == TRANSPORT_STDOUT then
      process_default_record record transport timestamp
    else if transport == TRANSPORT_KERNEL then process_kernel_record record timestamp
    else RecordStatus.BadLine
  | none => RecordStatus.BadLine

/-- Timestamp derivation of JournaldSource::process_next_record (lines
201-216).  The journald reader yields SystemTime values equal to
UNIX_EPOCH plus an unsigned number of microseconds, modelled here as Nat
seconds since the epoch, so duration_since(UNIX_EPOCH).unwrap() always
succeeds and is the identity.  chrono local-time formatting with pattern
%b %d %H:%M:%S is abstracted as fmt, and Local::now() as now; the error
branch logs a warning and falls back to the current time. -/
def derive_timestamp (fmt : Nat → String) (now : Nat) (ts : Except Unit Nat) : String :=
  match ts with
  | Except.ok t => fmt t
  | Except.error _ => fmt now

/-- JournaldSource::process_next_record, with the reader interactions
(next_entry and timestamp) passed in as values: a missing next entry
yields NoLines, otherwise the timestamp is derived totally and the
record dispatched on its transport. -/
def process_next_record (fmt : Nat → String) (now : Nat)
    (entry : Option JournalRecord) (ts : Except Unit Nat) : RecordStatus :=
  match entry with
  | none => RecordStatus.NoLines
  | some record => process_record_transport record (derive_timestamp fmt now ts)

theorem process_audit_record_badline_indep (record : JournalRecord) (s1 s2 : String)
    (h : process_audit_record record s1 = RecordStatus.BadLine) :
    process_audit_record record s2 = RecordStatus.BadLine := by
  unfold process_audit_record at h ⊢
  rcases hH : recordGet record KEY_HOSTNAME with _ | host <;>
    rcases hP : recordGet record KEY_PID with _ | pid <;>
    rcases hM : recordGet record KEY_MESSAGE with _ | msg <;>
    simp_all

theorem process_default_record_badline_indep (record : JournalRecord) (t s1 s2 : String)
    (h : process_default_record record t s1 = RecordStatus.BadLine) :
    process_default_record record t s2 = RecordStatus.BadLine := by
  unfold process_default_record at h ⊢
  rcases hH : recordGet record KEY_HOSTNAME with _ | host <;>
    rcases hC : recordGet record KEY_COMM with _ | comm <;>
    rcases hP : recordGet record KEY_PID with _ | pid <;>
    rcases hM : recordGet record KEY_MESSAGE with _ | msg <;>
    simp_all

theorem process_kernel_record_badline_indep (record : JournalRecord) (s1 s2 : String)
    (h : process_kernel_record record s1 = RecordStatus.BadLine) :
    process_kernel_record record s2 = RecordStatus.BadLine := by
  unfold process_kernel_record at h ⊢
  rcases hH : recordGet record KEY_HOSTNAME with _ | host <;>
    rcases hM : recordGet record KEY_MESSAGE with _ | msg <;>
    simp_all

/-- C2: the display timestamp is derived totally: a readable timestamp
is formatted with the local-time formatter, an unreadable one falls back
to the formatted current local time; and whether a record is rejected
never depends on the timestamp string, so a record is never rejected
(and processing never aborts) solely because of a bad timestamp. -/
theorem c2_timestamp_derivation_total (fmt : Nat → String) (now : Nat)
    (ts : Except Unit Nat) :
    (∀ t, ts = Except.ok t → derive_timestamp fmt now ts = fmt t) ∧
    (∀ e, ts = Except.error e → derive_timestamp fmt now ts = fmt now) ∧
    (∀ record, process_next_record fmt now (some record) ts =
      process_record_transport record (derive_timestamp fmt now ts)) ∧
    (∀ record s1 s2, process_record_transport record s1 = RecordStatus.BadLine →
      process_record_transport record s2 = RecordStatus.BadLine) := by
  refine ⟨?_, ?_, ?_, ?_⟩
  · intro t h; subst h; rfl
  · intro e h; subst h; rfl
  · intro record; rfl
  · intro record s1 s2 h
    unfold process_record_transport at h ⊢
    rcases hT : recordGet record KEY_TRANSPORT with _ | t
    · simp
    · rw [hT] at h
      by_cases h1 : (t == TRANSPORT_AUDIT) = true


      · simp only [h1, if_true] at h ⊢
        exact process_audit_record_badline_indep record s1 s2 h
      · simp only [h1, Bool.false_eq_true, if_false] at h ⊢
        by_cases h2 : (t == TRANSPORT_DRIVER || t == TRANSPORT_SYSLOG ||
            t == TRANSPORT_JOURNAL || t == TRANSPORT_STDOUT) = true
        · simp only [h2, if_true] at h ⊢
          exact process_default_record_badline_indep record t s1 s2 h
        · simp only [h2, Bool.false_eq_true, if_false] at h ⊢
          by_cases h3 : (t == TRANSPORT_KERNEL) = true
          · simp only [h3, if_true] at h ⊢
            exact process_kernel_record_badline_indep record s1 s2 h
          · simp only [h3, Bool.false_eq_true, if_false] at h ⊢

/-- C2 witness: a readable timestamp of 5 seconds is formatted with the
formatter at 5. -/
theorem c2_timestamp_derivation_total_witness :
    derive_timestamp (fun n => Nat.repr n) 0 (Except.ok 5) = "5" :=
  (c2_timestamp_derivation_total (fun n => Nat.repr n) 0 (Except.ok 5)).1 5 rfl

/-- C4: with all required fields present, the formatted line is exactly
ts host comm[pid]: msg for the driver, syslog, journal and stdout
transports, ts host audit[pid]: msg for audit, and ts host kernel: msg
for kernel; in each case the origin file of the line is the hostname. -/
theorem c4_formatted_line_shape (record : JournalRecord)
    (ts host comm pid msg : String) :
    (∀ t, recordGet record KEY_TRANSPORT = some t →
      (t = TRANSPORT_DRIVER ∨ t = TRANSPORT_SYSLOG ∨ t = TRANSPORT_JOURNAL ∨
        t = TRANSPORT_STDOUT) →
      recordGet record KEY_HOSTNAME = some host →
      recordGet record KEY_COMM = some comm →
      recordGet record KEY_PID = some pid →
      recordGet record KEY_MESSAGE = some msg →
      process_record_transport record ts = RecordStatus.Line
        ⟨some (ts ++ " " ++ host ++ " " ++ comm ++ "[" ++ pid ++ "]: " ++ msg),
          some host, none, none⟩) ∧
    (recordGet record KEY_TRANSPORT = some TRANSPORT_AUDIT →
      recordGet record KEY_HOSTNAME = some host →
      recordGet record KEY_PID = some pid →
      recordGet record KEY_MESSAGE = some msg →
      process_record_transport record ts = RecordStatus.Line
        ⟨some (ts ++ " " ++ host ++ " audit[" ++ pid ++ "]: " ++ msg),
          some host, none, none⟩) ∧
    (recordGet record KEY_TRANSPORT = some TRANSPORT_KERNEL →
      recordGet record KEY_HOSTNAME = some host →
      recordGet record KEY_MESSAGE = some msg →
      process_record_transport record ts = RecordStatus.Line
        ⟨some (ts ++ " " ++ host ++ " kernel: " ++ msg), some host, none, none⟩) := by
  refine ⟨?_, ?_, ?_⟩
  · intro t hT hcase hH hC hP hM
    rcases hcase with h | h | h | h <;> subst h <;>
      simp [process_record_transport, hT, process_default_record, hH, hC, hP, hM,
        TRANSPORT_DRIVER, TRANSPORT_SYSLOG, TRANSPORT_JOURNAL, TRANSPORT_STDOUT,
        TRANSPORT_AUDIT, LineBuilder.new, LineBuilder.withLine, LineBuilder.withFile]
  · intro hT hH hP hM
    simp [process_record_transport, hT, process_audit_record, hH, hP, hM,
      TRANSPORT_AUDIT, LineBuilder.new, LineBuilder.withLine, LineBuilder.withFile]
  · intro hT hH hM
    simp [process_record_transport, hT, process_kernel_record, hH, hM,
      TRANSPORT_AUDIT, TRANSPORT_DRIVER, TRANSPORT_SYSLOG, TRANSPORT_JOURNAL,
      TRANSPORT_STDOUT, TRANSPORT_KERNEL,
      LineBuilder.new, LineBuilder.withLine, LineBuilder.withFile]

/-- C4 witness: a concrete syslog record is formatted as
ts host comm[pid]: msg with file set to the hostname. -/
theorem c4_formatted_line_shape_witness :
    process_record_transport
        [("_TRANSPORT", "syslog"), ("_HOSTNAME", "h"), ("_COMM", "c"),
          ("_PID", "1"), ("MESSAGE", "m")] "Jan 01 00:00:00" =
      RecordStatus.Line ⟨some "Jan 01 00:00:00 h c[1]: m", some "h", none, none⟩ :=
  (c4_formatted_line_shape
      [("_TRANSPORT", "syslog"), ("_HOSTNAME", "h"), ("_COMM", "c"),
        ("_PID", "1"), ("MESSAGE", "m")] "Jan 01 00:00:00" "h" "c" "1" "m").1
    "syslog" (by decide) (Or.inr (Or.inl rfl)) (by decide) (by decide) (by decide)
    (by decide)

theorem process_audit_record_missing (record : JournalRecord) (ts : String)
    (h : recordGet record KEY_HOSTNAME = none ∨ recordGet record KEY_PID = none ∨
      recordGet record KEY_MESSAGE = none) :
    process_audit_record record ts = RecordStatus.BadLine := by
  unfold process_audit_record
  rcases hH : recordGet record KEY_HOSTNAME with _ | host <;>
    rcases hP : recordGet record KEY_PID with _ | pid <;>
    rcases hM : recordGet record KEY_MESSAGE with _ | msg <;>
    simp_all

theorem process_default_record_missing (record : JournalRecord) (t ts : String)
    (h : recordGet record KEY_HOSTNAME = none ∨ recordGet record KEY_COMM = none ∨
      recordGet record KEY_PID = none ∨ recordGet record KEY_MESSAGE = none) :
    process_default_record record t ts = RecordStatus.BadLine := by
  unfold process_default_record
  rcases hH : recordGet record KEY_HOSTNAME with _ | host <;>
    rcases hC : recordGet record KEY_COMM with _ | comm <;>
    rcases hP : recordGet record KEY_PID with _ | pid <;>
    rcases hM : recordGet record KEY_MESSAGE with _ | msg <;>
    simp_all

theorem process_kernel_record_missing (record : JournalRecord) (ts : String)
    (h : recordGet record KEY_HOSTNAME = none ∨ recordGet record KEY_MESSAGE = none) :
    process_kernel_record record ts = RecordStatus.BadLine := by
  unfold process_kernel_record
  rcases hH : recordGet record KEY_HOSTNAME with _ | host <;>
    rcases hM : recordGet record KEY_MESSAGE with _ | msg <;>
    simp_all

/-- C5: whichever transport is resolved, a missing required field makes
the formatter return BadLine: never a partially formatted line. -/
theorem c5_missing_field_rejects (record : JournalRecord) (ts : String) :
    (∀ t, recordGet record KEY_TRANSPORT = some t →
      (t = TRANSPORT_DRIVER ∨ t = TRANSPORT_SYSLOG ∨ t = TRANSPORT_JOURNAL ∨
        t = TRANSPORT_STDOUT) →
      (recordGet record KEY_HOSTNAME = none ∨ recordGet record KEY_COMM = none ∨
        recordGet record KEY_PID = none ∨ recordGet record KEY_MESSAGE = none) →
      process_record_transport record ts = RecordStatus.BadLine) ∧
    (recordGet record KEY_TRANSPORT = some TRANSPORT_AUDIT →
      (recordGet record KEY_HOSTNAME = none ∨ recordGet record KEY_PID = none ∨
        recordGet record KEY_MESSAGE = none) →
      process_record_transport record ts = RecordStatus.BadLine) ∧
    (recordGet record KEY_TRANSPORT = some TRANSPORT_KERNEL →
      (recordGet record KEY_HOSTNAME = none ∨ recordGet record KEY_MESSAGE = none) →
      process_record_transport record ts = RecordStatus.BadLine) := by
  refine ⟨?_, ?_, ?_⟩
  · intro t hT hcase hmiss
    have hd := process_default_record_missing record t ts hmiss
    rcases hcase with h | h | h | h <;> subst h <;>
      simp [process_record_transport, hT, TRANSPORT_DRIVER, TRANSPORT_SYSLOG,
        TRANSPORT_JOURNAL, TRANSPORT_STDOUT, TRANSPORT_AUDIT] <;>
      exact hd
  · intro hT hmiss
    have hd := process_audit_record_missing record ts hmiss
    simp [process_record_transport, hT, hd, TRANSPORT_AUDIT]
  · intro hT hmiss
    have hd := process_kernel_record_missing record ts hmiss
    simp [process_record_transport, hT, hd, TRANSPORT_AUDIT, TRANSPORT_DRIVER,
      TRANSPORT_SYSLOG, TRANSPORT_JOURNAL, TRANSPORT_STDOUT, TRANSPORT_KERNEL]

/-- C5 witness: an audit record with hostname and message but no pid is
rejected. -/
theorem c5_missing_field_rejects_witness :
    process_record_transport
        [("_TRANSPORT", "audit"), ("_HOSTNAME", "h"), ("MESSAGE", "m")] "ts" =
      RecordStatus.BadLine :=
  (c5_missing_field_rejects
      [("_TRANSPORT", "audit"), ("_HOSTNAME", "h"), ("MESSAGE", "m")] "ts").2.1
    (by decide) (Or.inr (Or.inl (by decide)))

/-- C6: a record whose transport field is missing, or whose transport is
none of audit, driver, syslog, journal, stdout and kernel, is rejected
with BadLine, never formatted. -/
theorem c6_unknown_transport_rejects (record : JournalRecord) (ts : String) :
    (recordGet record KEY_TRANSPORT = none →
      process_record_transport record ts = RecordStatus.BadLine) ∧
    (∀ t, recordGet record KEY_TRANSPORT = some t →
      t ≠ TRANSPORT_AUDIT → t ≠ TRANSPORT_DRIVER → t ≠ TRANSPORT_SYSLOG →
      t ≠ TRANSPORT_JOURNAL → t ≠ TRANSPORT_STDOUT → t ≠ TRANSPORT_KERNEL →
      process_record_transport record ts = RecordStatus.BadLine) := by
  constructor
  · intro hT
    simp [process_record_transport, hT]
  · intro t hT h1 h2 h3 h4 h5 h6
    simp [process_record_transport, hT, h1, h2, h3, h4, h5, h6]

/-- C6 witness: a record with transport vsock is rejected. -/
theorem c6_unknown_transport_rejects_witness :
    process_record_transport [("_TRANSPORT", "vsock"), ("MESSAGE", "m")] "ts" =
      RecordStatus.BadLine :=
  (c6_unknown_transport_rejects [("_TRANSPORT", "vsock"), ("MESSAGE", "m")] "ts").2
    "vsock" (by decide) (by decide) (by decide) (by decide) (by decide) (by decide)
    (by decide)

/-! ## Kubernetes middleware (src/common/k8s/src/middleware.rs)

PodMetadata, the TryFrom conversion, the watch-event handler on the pod
metadata cache, and Middleware::process.  The HashMap cache is modelled
as an association list with unique-key update semantics: lookup, insert
and remove act on the first matching key. -/

/-- PodMetadata of the source; the namespace field is renamed nspace
because namespace is a Lean keyword, and annotations is shortened to
annots. -/
structure PodMetadata where
  name : String
  nspace : String
  labels : List (String × String)
  annots : List (String × String)
deriving DecidableEq, Repr

/-- ObjectMeta of the orchestrator client (k8s_openapi), restricted to
the fields the source reads: optional name, namespace, labels and
annotations. -/
structure ObjectMeta where
  name : Option String := none
  nspace : Option String := none
  labels : Option (List (String × String)) := none
  annots : Option (List (String × String)) := none
deriving DecidableEq, Repr

/-- Pod of the orchestrator client (k8s_openapi), restricted to the
optional metadata block the source reads. -/
structure Pod where
  metadata : Option ObjectMeta := none
deriving DecidableEq, Repr

/-- K8sError of the crate errors module: the variant used by the
conversion carries the name of the missing piece of metadata. -/
inductive K8sError where
  | PodMissingMetaError (field : String)
deriving DecidableEq, Repr

/-- TryFrom Pod for PodMetadata: reject a pod without a metadata block,
without a name or without a namespace; otherwise build the record, with
missing label and annotation maps defaulted to empty. -/
def PodMetadata.try_from (value : Pod) : Except K8sError PodMetadata :=
  match value.metadata with
  | none => Except.error (K8sError.PodMissingMetaError "metadata")
  | some real_pod_meta =>
    match real_pod_meta.name with
    | none => Except.error (K8sError.PodMissingMetaError "metadata.name")
    | some name =>
      match real_pod_meta.nspace with
      | none => Except.error (K8sError.PodMissingMetaError "metadata.namespace")
      | some nspace =>
        Except.ok
          { name := name, nspace := nspace,
            labels := real_pod_meta.labels.getD [],
            annots := real_pod_meta.annots.getD [] }

/-- The pod metadata cache: HashMap from composite key to PodMetadata,
as an association list with unique keys. -/
abbrev Cache := List (String × PodMetadata)

/-- HashMap::get: the value at the first (hence, keys being unique, the
only) matching key. -/
def cacheGet (c : Cache) (k : String) : Option PodMetadata :=
  match c with
  | [] => none
  | (k2, v2) :: rest => if k2 == k then some v2 else cacheGet rest k

/-- HashMap::insert: replace the entry at the key, or append a new
one. -/
def cacheInsert (c : Cache) (k : String) (v : PodMetadata) : Cache :=
  match c with
  | [] => [(k, v)]
  | (k2, v2) :: rest =>
    if k2 == k then (k, v) :: rest else (k2, v2) :: cacheInsert rest k v

/-- HashMap::remove. -/
def cacheRemove (c : Cache) (k : String) : Cache :=
  match c with
  | [] => []
  | (k2, v2) :: rest =>
    if k2 == k then rest else (k2, v2) :: cacheRemove rest k

/-- HashMap::get_mut at the key followed by assignment of the labels and
annotations fields in place (the Modified arm of handle_pod); absent
key: no change. -/
def cacheUpdateMeta (c : Cache) (k : String) (labels annots : List (String × String)) :
    Cache :=
  match c with
  | [] => []
  | (k2, v2) :: rest =>
    if k2 == k then (k2, { v2 with labels := labels, annots := annots }) :: rest
    else (k2, v2) :: cacheUpdateMeta rest k labels annots

/-- WatchEvent of the orchestrator client, restricted to the payloads
the source reads. -/
inductive WatchEvent where
  | Added (pod : Pod)
  | Modified (pod : Pod)
  | Deleted (pod : Pod)
  | ErrorEvent
deriving DecidableEq, Repr

/-- The composite cache key written name_namespace in the source. -/
def compositeKey (pm : PodMetadata) : String :=
  pm.name ++ "_" ++ pm.nspace

/-- K8sMiddleware::handle_pod acting on the cache (metrics calls and log
warnings dropped): add inserts under the composite key, modify updates
labels and annotations only when the key already exists, delete removes
the key, per-event conversion failure or an error event leaves the cache
unchanged. -/
def handle_pod (cache : Cache) (event : WatchEvent) : Cache :=
  match event with
  | WatchEvent.Added pod =>
    match PodMetadata.try_from pod with
    | Except.error _ => cache
    | Except.ok pm => cacheInsert cache (compositeKey pm) pm
  | WatchEvent.Modified pod =>
    match PodMetadata.try_from pod with
    | Except.error _ => cache
    | Except.ok pm => cacheUpdateMeta cache (compositeKey pm) pm.labels pm.annots
  | WatchEvent.Deleted pod =>
    match PodMetadata.try_from pod with
    | Except.error _ => cache
    | Except.ok pm => cacheRemove cache (compositeKey pm)
  | WatchEvent.ErrorEvent => cache

/-- Modelled from the spec: the middleware Status result type (the
middleware crate is outside src).  The contract used here is that
process returns a possibly modified batch through the Ok payload; the
type also has a non-Ok constructor, so returning Ok is an actual
commitment. -/
inductive Status where
  | Ok (lines : List LineBuilder)
  | Skip
deriving DecidableEq, Repr

/-- The body of the loop of K8sMiddleware::process for one line: if the
line has an origin file whose path correlates to a pod present in the
cache, an enriched copy of the line with that pod labels and annotations
attached, otherwise nothing. -/
def enrichOf (cache : Cache) (line : LineBuilder) : Option LineBuilder :=
  match line.file with
  | none => none
  | some file_name =>
    match parse_container_path file_name with
    | none => none
    | some (name, nspace) =>
      match cacheGet cache (name ++ "_" ++ nspace) with
      | none => none
      | some pod_meta_data =>
        some ((line.withLabels pod_meta_data.labels).withAnnots pod_meta_data.annots)

/-- K8sMiddleware::process: scan the batch, remember the enriched copy
of the last line that correlates to a cached pod, and return either that
single line or the unchanged batch. -/
def process (cache : Cache) (lines : List LineBuilder) : Status :=
  let container_line :=
    lines.foldl
      (fun acc line =>
        match enrichOf cache line with
        | some new_line => some new_line
        | none => acc)
      none
  match container_line with
  | some line => Status.Ok [line]
  | none => Status.Ok lines

theorem cacheGet_none_updateMeta (k : String) (labels annots : List (String × String)) :
    ∀ c : Cache, cacheGet c k = none → cacheUpdateMeta c k labels annots = c := by
  intro c
  induction c with
  | nil => intro _; rfl
  | cons e rest ih =>
    intro h
    obtain ⟨k2, v2⟩ := e
    unfold cacheGet at h
    by_cases hk : (k2 == k) = true
    · rw [if_pos hk] at h
      exact absurd h (by simp)
    · rw [if_neg hk] at h
      unfold cacheUpdateMeta
      simp only [hk, Bool.false_eq_true, if_false]
      rw [ih h]

theorem cacheGet_none_remove (k : String) :
    ∀ c : Cache, cacheGet c k = none → cacheRemove c k = c := by
  intro c
  induction c with
  | nil => intro _; rfl
  | cons e rest ih =>
    intro h
    obtain ⟨k2, v2⟩ := e
    unfold cacheGet at h
    by_cases hk : (k2 == k) = true
    · rw [if_pos hk] at h
      exact absurd h (by simp)
    · rw [if_neg hk] at h
      unfold cacheRemove
      simp only [hk, Bool.false_eq_true, if_false]
      rw [ih h]

theorem cacheGet_updateMeta_self (k : String) (labels annots : List (String × String)) :
    ∀ (c : Cache) (old : PodMetadata), cacheGet c k = some old →
      cacheGet (cacheUpdateMeta c k labels annots) k =
        some { old with labels := labels, annots := annots } := by
  intro c
  induction c with
  | nil => intro old h; simp [cacheGet] at h
  | cons e rest ih =>
    intro old h
    obtain ⟨k2, v2⟩ := e
    unfold cacheGet at h
    by_cases hk : (k2 == k) = true
    · rw [if_pos hk] at h
      simp only [Option.some.injEq] at h
      subst h
      unfold cacheUpdateMeta
      rw [if_pos hk]
      unfold cacheGet
      rw [if_pos hk]
    · rw [if_neg hk] at h
      unfold cacheUpdateMeta
      simp only [hk, Bool.false_eq_true, if_false]
      unfold cacheGet
      simp only [hk, Bool.false_eq_true, if_false]
      exact ih old h

theorem cacheGet_updateMeta_other (k : String) (labels annots : List (String × String)) :
    ∀ (c : Cache) (k2 : String), k2 ≠ k →
      cacheGet (cacheUpdateMeta c k labels annots) k2 = cacheGet c k2 := by
  intro c
  induction c with
  | nil => intro k2 _; rfl
  | cons e rest ih =>
    intro k2 hne
    obtain ⟨k3, v3⟩ := e
    unfold cacheUpdateMeta
    by_cases hk : (k3 == k) = true
    · rw [if_pos hk]
      have hk3 : k3 = k := by simpa using hk
      subst hk3
      have hne2 : (k3 == k2) = false := by
        simp only [beq_eq_false_iff_ne, ne_eq]
        exact fun hcontra => hne hcontra.symm
      unfold cacheGet
      rw [if_neg (by simp [hne2]), if_neg (by simp [hne2])]
    · rw [if_neg hk]
      unfold cacheGet
      by_cases hk2 : (k3 == k2) = true
      · rw [if_pos hk2, if_pos hk2]
      · rw [if_neg hk2, if_neg hk2]
        exact ih k2 hne

/-- C7: a Modified event whose composite key is absent from the cache
leaves the cache unchanged (no creation-on-modify), and a Deleted event
for an absent key is a no-op, so deletion is idempotent. -/
theorem c7_modify_delete_absent (cache : Cache) (pod : Pod) (pm : PodMetadata)
    (hconv : PodMetadata.try_from pod = Except.ok pm)
    (habs : cacheGet cache (compositeKey pm) = none) :
    handle_pod cache (WatchEvent.Modified pod) = cache ∧
    handle_pod cache (WatchEvent.Deleted pod) = cache := by
  constructor
  · simp only [handle_pod, hconv]
    exact cacheGet_none_updateMeta (compositeKey pm) pm.labels pm.annots cache habs
  · simp only [handle_pod, hconv]
    exact cacheGet_none_remove (compositeKey pm) cache habs

/-- C7 witness: on the singleton cache holding the key a_b, modifying or
deleting the pod x in namespace y (whose key x_y is absent) changes
nothing. -/
theorem c7_modify_delete_absent_witness :
    handle_pod [("a_b", ⟨"a", "b", [], []⟩)]
        (WatchEvent.Modified ⟨some { name := some "x", nspace := some "y" }⟩) =
      [("a_b", ⟨"a", "b", [], []⟩)] ∧
    handle_pod [("a_b", ⟨"a", "b", [], []⟩)]
        (WatchEvent.Deleted ⟨some { name := some "x", nspace := some "y" }⟩) =
      [("a_b", ⟨"a", "b", [], []⟩)] :=
  c7_modify_delete_absent [("a_b", ⟨"a", "b", [], []⟩)]
    ⟨some { name := some "x", nspace := some "y" }⟩ ⟨"x", "y", [], []⟩
    rfl (by decide)

/-- C8: a Modified event whose composite key is present replaces only
the labels and annotations of the cached record, keeping its name and
namespace, and the value at every other key is unchanged. -/
theorem c8_modify_present_frame (cache : Cache) (pod : Pod) (pm old : PodMetadata)
    (hconv : PodMetadata.try_from pod = Except.ok pm)
    (hpres : cacheGet cache (compositeKey pm) = some old) :
    cacheGet (handle_pod cache (WatchEvent.Modified pod)) (compositeKey pm) =
      some { name := old.name, nspace := old.nspace,
             labels := pm.labels, annots := pm.annots } ∧
    ∀ k2, k2 ≠ compositeKey pm →
      cacheGet (handle_pod cache (WatchEvent.Modified pod)) k2 = cacheGet cache k2 := by
  constructor
  · simp only [handle_pod, hconv]
    exact cacheGet_updateMeta_self (compositeKey pm) pm.labels pm.annots cache old hpres
  · intro k2 hne
    simp only [handle_pod, hconv]
    exact cacheGet_updateMeta_other (compositeKey pm) pm.labels pm.annots cache k2 hne

/-- C8 witness: modifying the cached pod a in namespace b replaces its
labels and annotations, keeps its identity, and leaves the entry at the
other key c_d unchanged. -/
theorem c8_modify_present_frame_witness :
    cacheGet
        (handle_pod [("a_b", ⟨"a", "b", [("old", "1")], []⟩), ("c_d", ⟨"c", "d", [], []⟩)]
          (WatchEvent.Modified
            ⟨some { name := some "a", nspace := some "b",
                    labels := some [("new", "2")] }⟩))
        "a_b" =
      some ⟨"a", "b", [("new", "2")], []⟩ ∧
    cacheGet
        (handle_pod [("a_b", ⟨"a", "b", [("old", "1")], []⟩), ("c_d", ⟨"c", "d", [], []⟩)]
          (WatchEvent.Modified
            ⟨some { name := some "a", nspace := some "b",
                    labels := some [("new", "2")] }⟩))
        "c_d" =
      cacheGet [("a_b", ⟨"a", "b", [("old", "1")], []⟩), ("c_d", ⟨"c", "d", [], []⟩)] "c_d" :=
  ⟨(c8_modify_present_frame
      [("a_b", ⟨"a", "b", [("old", "1")], []⟩), ("c_d", ⟨"c", "d", [], []⟩)]
      ⟨some { name := some "a", nspace := some "b", labels := some [("new", "2")] }⟩
      ⟨"a", "b", [("new", "2")], []⟩ ⟨"a", "b", [("old", "1")], []⟩
      rfl (by decide)).1,
   (c8_modify_present_frame
      [("a_b", ⟨"a", "b", [("old", "1")], []⟩), ("c_d", ⟨"c", "d", [], []⟩)]
      ⟨some { name := some "a", nspace := some "b", labels := some [("new", "2")] }⟩
      ⟨"a", "b", [("new", "2")], []⟩ ⟨"a", "b", [("old", "1")], []⟩
      rfl (by decide)).2 "c_d" (by decide)⟩

/-- C9: the conversion of an orchestrator pod object succeeds exactly
when the metadata block, the name and the namespace are all present, and
the record built carries exactly that name and namespace (with missing
label or annotation maps defaulted to empty); if any of the three is
absent the conversion is an error, so no partially populated record is
ever constructed. -/
theorem c9_try_from_characterization (pod : Pod) :
    (∀ pm, PodMetadata.try_from pod = Except.ok pm ↔
      ∃ m, pod.metadata = some m ∧ m.name = some pm.name ∧ m.nspace = some pm.nspace ∧
        pm.labels = m.labels.getD [] ∧ pm.annots = m.annots.getD []) ∧
    ((pod.metadata = none ∨
        ∃ m, pod.metadata = some m ∧ (m.name = none ∨ m.nspace = none)) →
      ∃ e, PodMetadata.try_from pod = Except.error e) := by
  constructor
  · intro pm
    constructor
    · intro h
      rcases hmeta : pod.metadata with _ | m
      · simp [PodMetadata.try_from, hmeta] at h
      · rcases hn : m.name with _ | name
        · simp [PodMetadata.try_from, hmeta, hn] at h
        · rcases hs : m.nspace with _ | nspace
          · simp [PodMetadata.try_from, hmeta, hn, hs] at h
          · simp only [PodMetadata.try_from, hmeta, hn, hs, Except.ok.injEq] at h
            subst h
            exact ⟨m, rfl, by simp [hn], by simp [hs], by simp, by simp⟩
    · rintro ⟨m, hm, hn, hs, hl, ha⟩
      simp only [PodMetadata.try_from, hm, hn, hs]
      rw [← hl, ← ha]
  · rintro (hm | ⟨m, hm, hmiss⟩)
    · exact ⟨K8sError.PodMissingMetaError "metadata",
        by simp [PodMetadata.try_from, hm]⟩
    · rcases hmiss with hn | hs
      · exact ⟨K8sError.PodMissingMetaError "metadata.name",
          by simp [PodMetadata.try_from, hm, hn]⟩
      · rcases hn : m.name with _ | name
        · exact ⟨K8sError.PodMissingMetaError "metadata.name",
            by simp [PodMetadata.try_from, hm, hn]⟩
        · exact ⟨K8sError.PodMissingMetaError "metadata.namespace",
            by simp [PodMetadata.try_from, hm, hn, hs]⟩

/-- C9 witness: a pod with metadata, name and namespace converts to the
fully populated record; the characterization applied at it. -/
theorem c9_try_from_characterization_witness :
    PodMetadata.try_from ⟨some { name := some "a", nspace := some "b" }⟩ =
      Except.ok ⟨"a", "b", [], []⟩ :=
  ((c9_try_from_characterization
      ⟨some { name := some "a", nspace := some "b" }⟩).1
    ⟨"a", "b", [], []⟩).mpr
    ⟨{ name := some "a", nspace := some "b" }, rfl, rfl, rfl, rfl, rfl⟩

theorem foldl_last_enriched (f : LineBuilder → Option LineBuilder) :
    ∀ (xs : List LineBuilder) (init : Option LineBuilder),
      xs.foldl
          (fun acc x =>
            match f x with
            | some y => some y
            | none => acc)
          init =
        match (xs.filterMap f).getLast? with
        | some y => some y
        | none => init := by
  intro xs
  induction xs with
  | nil => intro init; simp
  | cons x xs ih =>
    intro init
    rw [List.foldl_cons, ih]
    rcases hf : f x with _ | y
    · simp [List.filterMap_cons, hf]
    · simp only [List.filterMap_cons, hf]
      rcases hl : (xs.filterMap f).getLast? with _ | z
      · simp [List.getLast?_cons, hl]
      · simp [List.getLast?_cons, hl]

/-- C3: process returns the one-element batch holding the enrichment of
the last line (in iteration order) that correlates to a cached pod, with
that pod labels and annotations attached, whenever some line does; when
no line correlates to a cached pod it returns the original batch
unchanged. -/
theorem c3_process_keeps_last_match (cache : Cache) (lines : List LineBuilder) :
    (∀ e, (lines.filterMap (enrichOf cache)).getLast? = some e →
      process cache lines = Status.Ok [e]) ∧
    ((lines.filterMap (enrichOf cache)).getLast? = none →
      process cache lines = Status.Ok lines) := by
  constructor
  · intro e he
    unfold process
    rw [foldl_last_enriched (enrichOf cache) lines none, he]
  · intro he
    unfold process
    rw [foldl_last_enriched (enrichOf cache) lines none, he]

/-- C3 witness: with the pod nginx in namespace default cached, a batch
of an uncorrelated line followed by two lines that both correlate keeps
only the enrichment of the last one. -/
theorem c3_process_keeps_last_match_witness :
    process
        [("nginx_default", ⟨"nginx", "default", [("app", "web")], [("k", "v")]⟩)]
        [{ line := some "plain" },
          { line := some "first",
            file := some "/var/log/containers/nginx_default_nginx-0123456789abcdef0123456789abcdef0123456789abcdef0123456789abcdef.log" },
          { line := some "second",
            file := some "/var/log/containers/nginx_default_nginx-0123456789abcdef0123456789abcdef0123456789abcdef0123456789abcdef.log" }] =
      Status.Ok
        [{ line := some "second",
           file := some "/var/log/containers/nginx_default_nginx-0123456789abcdef0123456789abcdef0123456789abcdef0123456789abcdef.log",
           labels := some [("app", "web")], annots := some [("k", "v")] }] :=
  (c3_process_keeps_last_match
      [("nginx_default", ⟨"nginx", "default", [("app", "web")], [("k", "v")]⟩)]
      [{ line := some "plain" },
        { line := some "first",
          file := some "/var/log/containers/nginx_default_nginx-0123456789abcdef0123456789abcdef0123456789abcdef0123456789abcdef.log" },
        { line := some "second",
          file := some "/var/log/containers/nginx_default_nginx-0123456789abcdef0123456789abcdef0123456789abcdef0123456789abcdef.log" }]).1
    { line := some "second",
      file := some "/var/log/containers/nginx_default_nginx-0123456789abcdef0123456789abcdef0123456789abcdef0123456789abcdef.log",
      labels := some [("app", "web")], annots := some [("k", "v")] }
    (by decide)

/-- C10: process always returns Status.Ok of some batch, for every cache
and every input batch; enrichment misses are silent to the caller. -/
theorem c10_process_always_ok (cache : Cache) (lines : List LineBuilder) :
    ∃ out, process cache lines = Status.Ok out := by
  unfold process
  rcases h : lines.foldl
      (fun acc line =>
        match enrichOf cache line with
        | some new_line => some new_line
        | none => acc)
      none with _ | l
  · exact ⟨lines, by rw [h]⟩
  · exact ⟨[l], by rw [h]⟩

end Logdna
